import Mathlib

/-!
Verification of the eklavya-council debate orchestration pipeline.

The definitions below are a shallow embedding of the TypeScript sources
`src/ui/src/orchestrator-stream.ts`, `src/ui/src/providers.ts` and the
revised `src/src/orchestrator.ts`.  JavaScript strings are modelled by
Lean `String` (a list of Unicode scalar values); JavaScript numbers that
carry fractional values (temperatures, contrarian levels) are modelled
exactly over `ℚ` — the constants involved (0.2, 0.4, 0.5, 0.6, 0.8, 1.0)
are handled identically by IEEE doubles at every comparison the code
performs, so no claim here is float-sensitive.  Asynchronous provider
calls are modelled by an oracle mapping the index of the call (in the
strictly sequential schedule) to the call's outcome: `Except.ok text`
for a completed generation, `Except.error msg` for a fatal (post-retry)
failure, mirroring promise resolution/rejection.
-/

namespace Eklavya

-- ─── JavaScript string primitives used by the source ─────────────────────────

/-- Characters matched by the sanitiser's first regex
`[\x00-\x08\x0b\x0c\x0e-\x1f\x7f]` in `sanitiseField`
(orchestrator-stream.ts line 22): every C0 control character except
tab (U+0009), line feed (U+000A) and carriage return (U+000D), plus DEL. -/
def isStrippedControl (c : Char) : Bool :=
  c.toNat ≤ 0x08 || c.toNat == 0x0b || c.toNat == 0x0c ||
  (0x0e ≤ c.toNat && c.toNat ≤ 0x1f) || c.toNat == 0x7f

/-- The replacement `.replace(/```/g, "'''")` (orchestrator-stream.ts line
23): each non-overlapping run of three backticks becomes three
apostrophes; the scan resumes after the replaced run, as JavaScript's
global replace does. -/
def replaceFences : List Char → List Char
  | '\x60' :: '\x60' :: '\x60' :: rest => '\x27' :: '\x27' :: '\x27' :: replaceFences rest
  | c :: rest => c :: replaceFences rest
  | [] => []

/-- Line terminators recognised by a JavaScript multiline `^` anchor. -/
def isLineTerm (c : Char) : Bool :=
  c == '\x0a' || c == '\x0d' || c == '\u2028' || c == '\u2029'

/-- Split a character list into lines, each line keeping its trailing
terminator, so that a position is a JavaScript multiline line start
exactly when it is the start of one of the produced lines. -/
def splitAfterTerms : List Char → List (List Char)
  | [] => []
  | c :: rest =>
    if isLineTerm c then [c] :: splitAfterTerms rest
    else
      match splitAfterTerms rest with
      | [] => [[c]]
      | l :: ls => (c :: l) :: ls

/-- Length of the role header matched by `^(SYSTEM|USER|ASSISTANT|HUMAN):`
with the `i` flag at the start of the given line, if any.  The `i` flag
of a non-unicode JavaScript regex canonicalises ASCII letters only,
which `Char.toLower` reproduces for these ASCII patterns. -/
def headerLen (line : List Char) : Option Nat :=
  let low := line.map Char.toLower
  if List.isPrefixOf ("system:").data low then some 7
  else if List.isPrefixOf ("user:").data low then some 5
  else if List.isPrefixOf ("assistant:").data low then some 10
  else if List.isPrefixOf ("human:").data low then some 6
  else none

/-- Remove a leading role header from one line. -/
def stripHeaderLine (line : List Char) : List Char :=
  match headerLen line with
  | some n => line.drop n
  | none => line

/-- The replacement `.replace(/^(SYSTEM|USER|ASSISTANT|HUMAN):/gim, '')`
(orchestrator-stream.ts line 24).  With the `m` flag the anchor matches
at the string start and after every line terminator; two matches can
never occur on one line because the second occurrence is not at a line
start, so the global replace removes at most one header per line. -/
def stripRoleHeaders (cs : List Char) : List Char :=
  ((splitAfterTerms cs).map stripHeaderLine).flatten

/-- White space recognised by JavaScript `String.prototype.trim` and by
the `\s` character class: ASCII blanks, NBSP, the Unicode space
separators, the line separators and the BOM. -/
def isJsSpace (c : Char) : Bool :=
  ("\x20\x09\x0a\x0d\x0b\x0c\xa0\u1680\u2028\u2029\u202f\u205f\u3000\ufeff").data.contains c ||
  ('\u2000' ≤ c && c ≤ '\u200a')

/-- JavaScript `trim`: drop white space from both ends. -/
def jsTrim (cs : List Char) : List Char :=
  ((cs.dropWhile isJsSpace).reverse.dropWhile isJsSpace).reverse

/-- JavaScript `trim` on a `String`. -/
def jsTrimStr (s : String) : String :=
  String.mk (jsTrim s.data)

/-- ASCII lowercasing of a whole string, as `toLowerCase` acts on the
ASCII error messages classified by `isRetryable`. -/
def strToLower (s : String) : String :=
  String.mk (s.data.map Char.toLower)

/-- Substring test (JavaScript `String.prototype.includes`). -/
def hasSub (sub : List Char) : List Char → Bool
  | [] => sub.isEmpty
  | c :: rest => List.isPrefixOf sub (c :: rest) || hasSub sub rest

-- ─── Security: field sanitisation (orchestrator-stream.ts lines 20–27) ──────

/-- Character-level body of `sanitiseField`: strip the control-character
class, neutralise code fences, remove per-line role headers, cap the
length, then trim.  (`slice(0, maxLength)` counts UTF-16 code units in
JavaScript; it is modelled as a scalar-value `take`, which agrees on
every string without astral-plane characters near the cap.) -/
def sanitiseChars (cs : List Char) (maxLength : Nat) : List Char :=
  jsTrim ((stripRoleHeaders (replaceFences (cs.filter fun c => !isStrippedControl c))).take maxLength)

/-- `sanitiseField` from orchestrator-stream.ts lines 20–27 (identical in
orchestrator.ts lines 391–398). -/
def sanitiseField (value : String) (maxLength : Nat := 500) : String :=
  String.mk (sanitiseChars value.data maxLength)

-- ─── contrarian_level mappings (orchestrator-stream.ts lines 42–50) ─────────

/-- `contrarianTemperature`: scale 0.6 (agreeable) to 1.0 (maximum
contrarian). -/
def contrarianTemperature (level : ℚ) : ℚ :=
  0.6 + level * 0.4

/-- Instruction returned by `contrarianInstruction` for levels ≥ 0.8. -/
def aggressiveInstruction : String :=
  "Challenge every assumption aggressively. Find the flaw or risk in every position stated. Do not agree unless you are genuinely compelled by evidence."

/-- Instruction returned by `contrarianInstruction` for levels in [0.5, 0.8). -/
def pushBackInstruction : String :=
  "Push back where you have genuine doubts. Do not accept claims at face value without scrutiny."

/-- Instruction returned by `contrarianInstruction` for levels below 0.5. -/
def commonGroundInstruction : String :=
  "Look for synthesis and common ground where the evidence supports it, but do not abandon your core position."

/-- `contrarianInstruction` from orchestrator-stream.ts lines 46–50. -/
def contrarianInstruction (level : ℚ) : String :=
  if level ≥ 0.8 then aggressiveInstruction
  else if level ≥ 0.5 then pushBackInstruction
  else commonGroundInstruction

-- ─── Provider retry layer (providers.ts lines 180–206) ──────────────────────

def MAX_RETRIES : Nat := 2

def RETRY_DELAY_MS : Nat := 3000

/-- `isRetryable` from providers.ts lines 183–189.  A JavaScript `Error`
is modelled by its message string (the `instanceof Error` guard rejects
non-Error throwables, which do not occur in this model). -/
def isRetryable (msg : String) : Bool :=
  let m := (strToLower msg).data
  hasSub ("overload").data m || hasSub ("529").data m ||
  hasSub ("rate_limit").data m || hasSub ("429").data m ||
  hasSub ("timeout").data m || hasSub ("econnreset").data m

/-- One backend call per attempt: attempt index to outcome. -/
def Backend (α : Type) := Nat → Except String α

/-- Recursive body of `withRetry` (providers.ts lines 191–206): `attempt`
is the current loop index, `remaining` the attempts still allowed after
this one.  The result carries the outcome, the number of attempts made,
and the list of backoff delays (in ms) slept between attempts. -/
def withRetryGo (fn : Backend α) : Nat → Nat → Except String α × Nat × List Nat
  | attempt, 0 =>
    match fn attempt with
    | Except.ok a => (Except.ok a, 1, [])
    | Except.error e => (Except.error e, 1, [])
  | attempt, n + 1 =>
    match fn attempt with
    | Except.ok a => (Except.ok a, 1, [])
    | Except.error e =>
      if isRetryable e then
        let r := withRetryGo fn (attempt + 1) n
        (r.1, r.2.1 + 1, RETRY_DELAY_MS * (attempt + 1) :: r.2.2)
      else (Except.error e, 1, [])

/-- `withRetry` from providers.ts lines 191–206: up to `retries` retries,
retryable errors sleep `RETRY_DELAY_MS * (attempt + 1)` before the next
attempt, non-retryable errors are rethrown at once, and the last error
is rethrown when the attempts run out. -/
def withRetry (fn : Backend α) (retries : Nat := MAX_RETRIES) : Except String α × Nat × List Nat :=
  withRetryGo fn 0 retries

-- ─── Non-streaming Anthropic call (providers.ts lines 110–139) ──────────────

/-- One content block of an Anthropic response. -/
inductive ContentBlock where
  | text (s : String)
  | other
deriving DecidableEq

/-- The request record passed to `callProvider` (ui/src/types). -/
structure LLMRequest where
  system : String
  user : String
  max_tokens : Option Nat := none
  temperature : Option ℚ := none
  prefill : Option String := none
deriving DecidableEq

/-- The text taken from an Anthropic response:
`response.content[0]?.type === 'text' ? response.content[0].text : ''`. -/
def respText (content : List ContentBlock) : String :=
  match content.head? with
  | some (ContentBlock.text s) => s
  | _ => ""

/-- `collectAnthropic` from providers.ts lines 110–139, as a function of
the request and of the content blocks the backend returns for it.  When
a (truthy) prefill is present it is sent as an assistant message and
prepended to the returned continuation; `request.prefill ? ... : ...`
treats the empty string as absent. -/
def collectAnthropic (request : LLMRequest) (content : List ContentBlock) : String :=
  let text := respText content
  match request.prefill with
  | some p => if p.isEmpty then text else p ++ text
  | none => text

-- ─── JSON values and JSON.parse ─────────────────────────────────────────────

/-- A parsed JSON value.  Numbers keep their source lexeme: no claim
depends on float arithmetic, only on JavaScript truthiness, which
`numIsZero` recovers from the lexeme. -/
inductive Json where
  | null
  | bool (b : Bool)
  | num (lexeme : String)
  | str (s : String)
  | arr (elems : List Json)
  | obj (fields : List (String × Json))

/-- JSON insignificant white space. -/
def isJsonWs (c : Char) : Bool :=
  c == '\x20' || c == '\x09' || c == '\x0a' || c == '\x0d'

/-- Skip JSON white space. -/
def skipWs : List Char → List Char
  | c :: rest => if isJsonWs c then skipWs rest else c :: rest
  | [] => []

/-- Hexadecimal digit value. -/
def hexVal (c : Char) : Option Nat :=
  let n := c.toNat
  if 0x30 ≤ n && n ≤ 0x39 then some (n - 0x30)
  else if 0x61 ≤ n && n ≤ 0x66 then some (n - 0x57)
  else if 0x41 ≤ n && n ≤ 0x46 then some (n - 0x37)
  else none

/-- Parse the body of a JSON string after its opening quote, returning
the decoded characters and the input left after the closing quote.
Unescaped control characters are a parse error, as in `JSON.parse`.
JavaScript strings are UTF-16 and may pair `\u` surrogate escapes;
Lean scalar values cannot, so surrogate escapes decode to U+FFFD —
no claim exercises them. -/
def parseStringBody : Nat → List Char → Option (List Char × List Char)
  | 0, _ => none
  | _, [] => none
  | fuel + 1, c :: rest =>
    if c == '\"' then some ([], rest)
    else if c == '\\' then
      match rest with
      | [] => none
      | e :: rest2 =>
        if e == 'u' then
          match rest2 with
          | h1 :: h2 :: h3 :: h4 :: rest3 =>
            match hexVal h1, hexVal h2, hexVal h3, hexVal h4 with
            | some a, some b, some c2, some d =>
              let n := ((a * 16 + b) * 16 + c2) * 16 + d
              let ch := if 0xd800 ≤ n && n ≤ 0xdfff then '�' else Char.ofNat n
              match parseStringBody fuel rest3 with
              | some (cs, r) => some (ch :: cs, r)
              | none => none
            | _, _, _, _ => none
          | _ => none
        else
          let dec : Option Char :=
            if e == '\"' then some '\"'
            else if e == '\\' then some '\\'
            else if e == '/' then some '/'
            else if e == 'b' then some '\x08'
            else if e == 'f' then some '\x0c'
            else if e == 'n' then some '\n'
            else if e == 'r' then some '\r'
            else if e == 't' then some '\t'
            else none
          match dec with
          | some ch =>
            match parseStringBody fuel rest2 with
            | some (cs, r) => some (ch :: cs, r)
            | none => none
          | none => none
    else if c.toNat < 0x20 then none
    else
      match parseStringBody fuel rest with
      | some (cs, r) => some (c :: cs, r)
      | none => none

/-- Parse the optional fraction part `.digits` of a JSON number. -/
def parseFracPart (cs : List Char) : Option (List Char × List Char) :=
  match cs with
  | '.' :: r =>
    let ds := r.takeWhile Char.isDigit
    if ds.isEmpty then none else some ('.' :: ds, r.drop ds.length)
  | _ => some ([], cs)

/-- Parse the optional exponent part of a JSON number. -/
def parseExpPart (cs : List Char) : Option (List Char × List Char) :=
  match cs with
  | e :: r =>
    if e == 'e' || e == 'E' then
      let sr : List Char × List Char :=
        match r with
        | s :: r2 => if s == '+' || s == '-' then ([s], r2) else ([], r)
        | [] => ([], [])
      let ds := sr.2.takeWhile Char.isDigit
      if ds.isEmpty then none else some (e :: sr.1 ++ ds, sr.2.drop ds.length)
    else some ([], cs)
  | [] => some ([], [])

/-- Parse a JSON number starting at the head of the input, returning its
lexeme and the rest. -/
def parseNum (cs : List Char) : Option (List Char × List Char) :=
  let sp : List Char × List Char :=
    match cs with
    | '-' :: r => (['-'], r)
    | _ => ([], cs)
  match sp.2 with
  | c :: r =>
    if c == '0' || (c.isDigit && !(c == '0')) then
      let intDs := if c == '0' then ([] : List Char) else r.takeWhile Char.isDigit
      let afterInt := if c == '0' then r else r.drop intDs.length
      match parseFracPart afterInt with
      | some (frac, r2) =>
        match parseExpPart r2 with
        | some (ex, r3) => some (sp.1 ++ c :: intDs ++ frac ++ ex, r3)
        | none => none
      | none => none
    else none
  | [] => none

/-- One pass of the item loop of a JSON array, positioned at a value;
`pv` parses one value. -/
def arrItemsLoop (pv : List Char → Option (Json × List Char)) :
    Nat → List Char → List Json → Option (List Json × List Char)
  | 0, _, _ => none
  | fuel + 1, cs, acc =>
    match pv cs with
    | some (v, r) =>
      match skipWs r with
      | ',' :: r2 => arrItemsLoop pv fuel r2 (acc ++ [v])
      | ']' :: r2 => some (acc ++ [v], r2)
      | _ => none
    | none => none

/-- The member loop of a JSON object, positioned at a key. -/
def objItemsLoop (pv : List Char → Option (Json × List Char)) :
    Nat → List Char → List (String × Json) → Option (List (String × Json) × List Char)
  | 0, _, _ => none
  | fuel + 1, cs, acc =>
    match skipWs cs with
    | '\x22' :: r =>
      match parseStringBody fuel r with
      | some (key, r2) =>
        match skipWs r2 with
        | ':' :: r3 =>
          match pv r3 with
          | some (v, r4) =>
            match skipWs r4 with
            | ',' :: r5 => objItemsLoop pv fuel r5 (acc ++ [(String.mk key, v)])
            | '\x7d' :: r5 => some (acc ++ [(String.mk key, v)], r5)
            | _ => none
          | none => none
        | _ => none
      | none => none
    | _ => none

/-- Parse one JSON value given a parser `pv` for strictly nested values. -/
def parseValueStep (pv : List Char → Option (Json × List Char)) (fuel : Nat)
    (cs : List Char) : Option (Json × List Char) :=
  match skipWs cs with
  | [] => none
  | c :: rest =>
    if c == '\"' then
      match parseStringBody fuel rest with
      | some (content, r) => some (Json.str (String.mk content), r)
      | none => none
    else if c == '\x7b' then
      match skipWs rest with
      | '\x7d' :: r2 => some (Json.obj [], r2)
      | r2 => match objItemsLoop pv fuel r2 [] with
              | some (fields, r3) => some (Json.obj fields, r3)
              | none => none
    else if c == '[' then
      match skipWs rest with
      | ']' :: r2 => some (Json.arr [], r2)
      | r2 => match arrItemsLoop pv fuel r2 [] with
              | some (xs, r3) => some (Json.arr xs, r3)
              | none => none
    else if c == 't' then
      if List.isPrefixOf ("rue").data rest then some (Json.bool true, rest.drop 3) else none
    else if c == 'f' then
      if List.isPrefixOf ("alse").data rest then some (Json.bool false, rest.drop 4) else none
    else if c == 'n' then
      if List.isPrefixOf ("ull").data rest then some (Json.null, rest.drop 3) else none
    else if c == '-' || c.isDigit then
      match parseNum (c :: rest) with
      | some (lex, r) => some (Json.num (String.mk lex), r)
      | none => none
    else none

/-- Parse one JSON value, fuel-based: each nesting level consumes at
least one character, so `length + 1` fuel never runs out on an input
`JSON.parse` would accept. -/
def parseValue : Nat → List Char → Option (Json × List Char)
  | 0, _ => none
  | fuel + 1, cs => parseValueStep (parseValue fuel) fuel cs

/-- `JSON.parse`: one value surrounded only by white space. -/
def parseJson (s : String) : Option Json :=
  match parseValue (s.data.length + 1) s.data with
  | some (v, rest) => if (skipWs rest).isEmpty then some v else none
  | none => none

-- ─── Structured output extraction (orchestrator-stream.ts lines 279–312) ────

/-- The decision record as it exists at run time.  The TypeScript
`Synthesis` interface promises `string[]` fields and a confidence
enum, but `JSON.parse(synthText) as Synthesis` is an unchecked cast:
after normalisation the object holds whatever values the parse
produced, so fields are modelled as JSON values (a string `s` appears
as `Json.str s`). -/
structure Synthesis where
  decisions : List Json
  dissent : List Json
  open_questions : List Json
  actions : List Json
  confidence : Json
  summary : Json

/-- Property lookup on a parsed JSON object: the last occurrence of a
duplicated key wins, as in JavaScript. -/
def jsonLookup (fields : List (String × Json)) (key : String) : Option Json :=
  (fields.reverse.find? fun kv => kv.1 == key).map Prod.snd

/-- Whether the value of the zero-terminated mantissa of a number lexeme
is zero (`0`, `-0.00`, `0e7`, ...). -/
def numIsZero (lexeme : String) : Bool :=
  ((lexeme.data.takeWhile fun c => !(c == 'e' || c == 'E')).filter Char.isDigit).all fun c => c == '0'

/-- JavaScript truthiness of a JSON value. -/
def jsFalsy : Json → Bool
  | Json.null => true
  | Json.bool b => !b
  | Json.num lx => numIsZero lx
  | Json.str s => s.isEmpty
  | Json.arr _ => false
  | Json.obj _ => false

/-- `if (!Array.isArray(synthesis.f)) synthesis.f = [];` on field `f`. -/
def normaliseArr (v : Option Json) : List Json :=
  match v with
  | some (Json.arr xs) => xs
  | _ => []

/-- `if (!synthesis.f) synthesis.f = dflt;` on field `f`: an absent or
falsy value is replaced by the default string. -/
def normaliseTruthy (v : Option Json) (dflt : String) : Json :=
  match v with
  | some j => if jsFalsy j then Json.str dflt else j
  | none => Json.str dflt

/-- The normalisation block inside the `try` (orchestrator-stream.ts
lines 291–298).  On a parsed object the missing or mis-shaped fields
are filled with defaults; on a parsed array the same assignments run
against an object with no such properties (arrays are objects), leaving
the fully default-filled record; on a primitive or `null` the first
strict-mode property assignment throws, which the surrounding catch
turns into the fallback record (`none` here). -/
def normaliseSynthesis : Json → Option Synthesis
  | Json.obj fields =>
    some { decisions := normaliseArr (jsonLookup fields "decisions"),
           dissent := normaliseArr (jsonLookup fields "dissent"),
           open_questions := normaliseArr (jsonLookup fields "open_questions"),
           actions := normaliseArr (jsonLookup fields "actions"),
           confidence := normaliseTruthy (jsonLookup fields "confidence") "medium",
           summary := normaliseTruthy (jsonLookup fields "summary") "See transcript." }
  | Json.arr _ =>
    some { decisions := [], dissent := [], open_questions := [], actions := [],
           confidence := Json.str "medium", summary := Json.str "See transcript." }
  | _ => none

/-- Strip a leading code fence: `.replace(/^```(?:json)?\s*/i, '')`. -/
def stripLeadFence (s : String) : String :=
  match s.data with
  | '\x60' :: '\x60' :: '\x60' :: rest =>
    let rest2 := if List.isPrefixOf ("json").data (rest.map Char.toLower) then rest.drop 4 else rest
    String.mk (rest2.dropWhile isJsSpace)
  | _ => s

/-- Strip a trailing code fence: `.replace(/\s*```$/, '')`. -/
def stripTrailFence (s : String) : String :=
  match s.data.reverse with
  | '\x60' :: '\x60' :: '\x60' :: rest => String.mk ((rest.dropWhile isJsSpace).reverse)
  | _ => s

/-- The match `/\{[\s\S]*\}/`: the greedy span from the first opening
brace to the last closing brace, when the latter comes later. -/
def braceSpan (s : String) : Option String :=
  match s.data.findIdx? fun c => c == '\x7b' with
  | none => none
  | some i =>
    match s.data.reverse.findIdx? fun c => c == '\x7d' with
    | none => none
    | some jr =>
      let j := s.data.length - 1 - jr
      if i < j then some (String.mk ((s.data.drop i).take (j - i + 1))) else none

/-- The candidate payload handed to `JSON.parse`: fences stripped, the
result trimmed, then the first-brace-to-last-brace span when present
(orchestrator-stream.ts lines 281–287). -/
def synthCandidate (raw : String) : String :=
  let t := jsTrimStr (stripTrailFence (stripLeadFence raw))
  match braceSpan t with
  | some m => m
  | none => t

/-- The fully degraded fallback record produced by the catch branch
(orchestrator-stream.ts lines 304–311). -/
def fallbackSynthesis : Synthesis :=
  { decisions := [], dissent := [], open_questions := [], actions := [],
    confidence := Json.str "low",
    summary := Json.str "[Synthesis could not be parsed — full debate is in the transcript above]" }

/-- The whole extraction ladder applied to the raw synthesis text
(orchestrator-stream.ts lines 279–312): candidate extraction, parse,
normalisation, fallback on any throw. -/
def extractSynthesis (raw : String) : Synthesis :=
  match parseJson (synthCandidate raw) with
  | some j =>
    match normaliseSynthesis j with
    | some syn => syn
    | none => fallbackSynthesis
  | none => fallbackSynthesis

-- ─── Core domain types (ui/src/types.ts) ────────────────────────────────────

/-- Persona record (ui/src/types.ts).  `contrarian_level` is a scalar in
[0, 1], modelled over ℚ. -/
structure Persona where
  id : String
  name : String
  display_name : Option String := none
  role : String
  expertise : List String
  style : String
  bias : Option String := none
  contrarian_level : ℚ
  verbosity : String
  provider : Option String := none
  model : Option String := none

/-- Council record (ui/src/types.ts). -/
structure Council where
  id : String
  name : String
  description : String
  persona_ids : List String
  rounds : Nat
  focus : Option String := none

/-- One transcript message (ui/src/types.ts): round 0 is the moderator
opening, round r ≥ 1 a debate round. -/
structure Message where
  speaker : String
  speaker_role : String
  content : String
  round : Nat
  timestamp : String
deriving DecidableEq

/-- The finished session artifact (ui/src/types.ts).  `model_versions`
is a JavaScript object keyed by persona id, modelled as the association
list of assignments in order (a later binding for the same id wins). -/
structure Session where
  id : String
  question : String
  council_id : String
  council_name : String
  transcript : List Message
  synthesis : Synthesis
  created_at : String
  duration_seconds : Nat
  persona_count : Nat
  rounds : Nat
  provider_calls : Nat
  model_versions : List (String × String)

/-- Per-provider configuration (ui/src/types.ts). -/
structure ProviderConfig where
  api_key : String
  default_model : String

/-- Runtime configuration (ui/src/types.ts), with the provider table as
an association list over provider names. -/
structure EklavyaConfig where
  providers : List (String × ProviderConfig)
  default_provider : String
  default_council : String
  default_rounds : Nat
  stream : Bool
  max_tokens_per_turn : Nat

/-- `config.providers[provider]`. -/
def lookupProviderCfg (config : EklavyaConfig) (provider : String) : Option ProviderConfig :=
  (config.providers.find? fun kv => kv.1 == provider).map Prod.snd

/-- `hasProvider` (config.ts): a provider counts as configured when its
api_key is present and truthy (non-empty). -/
def hasProvider (config : EklavyaConfig) (provider : String) : Bool :=
  match lookupProviderCfg config provider with
  | some pc => !pc.api_key.isEmpty
  | none => false

/-- `getActiveProvider` (config.ts): the default provider when
configured, else the first configured of anthropic/openai/google, else
a thrown configuration error. -/
def getActiveProvider (config : EklavyaConfig) : Except String String :=
  if hasProvider config config.default_provider then Except.ok config.default_provider
  else if hasProvider config "anthropic" then Except.ok "anthropic"
  else if hasProvider config "openai" then Except.ok "openai"
  else if hasProvider config "google" then Except.ok "google"
  else Except.error "No API key configured. Run: eklavya init\nOr set ANTHROPIC_API_KEY / OPENAI_API_KEY / GOOGLE_API_KEY environment variable."

/-- `getPersona` (data/personas.ts) over an abstract read-only catalog;
an unknown id is a thrown configuration error. -/
def getPersona (catalog : String → Option Persona) (id : String) : Except String Persona :=
  match catalog id with
  | some p => Except.ok p
  | none => Except.error ("Persona not found: \"" ++ id ++ "\". Run: eklavya personas list")

-- ─── Prompt assembly (orchestrator-stream.ts lines 52–125, 150–271) ─────────

/-- JavaScript `Array.prototype.join`. -/
def joinWith (sep : String) : List String → String
  | [] => ""
  | [p] => p
  | p :: ps => p ++ sep ++ joinWith sep ps

/-- `join('\n')`. -/
def joinLines (parts : List String) : String :=
  joinWith "\n" parts

/-- `filter(Boolean)` over prompt line arrays: drops the falsy (empty)
entries, including the deliberate `''` spacer lines. -/
def filterTruthy (parts : List String) : List String :=
  parts.filter fun p => !p.isEmpty

/-- `sanitisePersona` (orchestrator-stream.ts lines 29–38).  The spread
keeps `display_name`, `contrarian_level` and the overrides untouched; a
falsy (empty) bias becomes `undefined`. -/
def sanitisePersona (persona : Persona) : Persona :=
  { persona with
    name := sanitiseField persona.name 100,
    role := sanitiseField persona.role 150,
    style := sanitiseField persona.style 500,
    bias := match persona.bias with
            | some b => if b.isEmpty then none else some (sanitiseField b 300)
            | none => none,
    expertise := (persona.expertise.map fun e => sanitiseField e 80).take 10 }

/-- Word budget chosen by verbosity tier. -/
def verbosityWords (v : String) : String :=
  if v == "brief" then "80–120" else if v == "medium" then "150–200" else "200–280"

/-- `buildPersonaSystemPrompt` (orchestrator-stream.ts lines 54–87). -/
def buildPersonaSystemPrompt (rawPersona : Persona) (userContext : Option String) : String :=
  let persona := sanitisePersona rawPersona
  let displayName := persona.display_name.getD persona.name
  let ctx := userContext.getD ""
  joinLines (filterTruthy [
    "You are a debate persona drawing on the expertise and style of: " ++ displayName ++ ", " ++ persona.role ++ ".",
    "",
    "YOUR EXPERTISE: " ++ joinWith ", " persona.expertise ++ ".",
    "YOUR COMMUNICATION STYLE: " ++ persona.style,
    (match persona.bias with
     | some b => if b.isEmpty then "" else "YOUR KNOWN PERSPECTIVE: " ++ b
     | none => ""),
    "",
    (if ctx.isEmpty then ""
     else "PERSON YOU ARE ADVISING:\n" ++ ctx ++ "\nSpeak directly to their specific situation — not a generic version of the question. Reference their context explicitly."),
    "",
    "COUNCIL RULES:",
    "- You are one voice in a multi-expert council debate.",
    "- Respond in character. Be specific and concrete. Avoid vague generalities.",
    "- " ++ contrarianInstruction persona.contrarian_level,
    "- Reference specific examples, failures, or patterns relevant to your expertise.",
    "- Do NOT simply agree with everything said. You are here to add distinct value.",
    "- Keep response to " ++ verbosityWords persona.verbosity ++ " words.",
    "- Do NOT use markdown headers or bullet points. Speak naturally, as in a live debate.",
    "- Do NOT open with your own name or \"As a [role]...\" — just speak.",
    "",
    "IMPORTANT: You are an AI generating a debate perspective. Your output is a thinking tool, not authoritative advice.",
    "SAFETY RULES (non-negotiable):",
    "- Do NOT provide medical diagnoses, treatment recommendations, or drug dosage guidance.",
    "- Do NOT provide legal advice, financial advice, or investment recommendations presented as fact.",
    "- If the topic involves mental health, self-harm, suicidal ideation, or personal crisis: acknowledge the difficulty, state clearly that professional help is needed, and reference crisis resources (988 in the US; local emergency services). Do not attempt to act as a therapist or crisis counsellor.",
    "- If the topic involves domestic violence, abuse, or personal safety: direct the user to professional support immediately.",
    "- You may discuss these topics analytically (e.g. policy, research, frameworks) but must never substitute for qualified professional help."])

/-- `buildPersonaUserPrompt` (orchestrator-stream.ts lines 89–125): the
context-windowing policy.  Round 1 sees the moderator framing; rounds
two onward see the stored prior-round summaries; every turn sees the
current round's earlier non-moderator turns verbatim. -/
def buildPersonaUserPrompt (persona : Persona) (question : String)
    (fullTranscript : List Message) (roundSummaries : List String) (round : Nat) : String :=
  let currentRoundMessages := fullTranscript.filter fun m => m.round == round && m.speaker != "Moderator"
  let displayName := persona.display_name.getD persona.name
  let parts0 : List String := ["TOPIC: " ++ question, ""]
  let parts1 :=
    if round == 1 then
      match fullTranscript.find? fun m => m.round == 0 with
      | some opening => parts0 ++ ["MODERATOR FRAMING: " ++ opening.content, ""]
      | none => parts0
    else
      if 0 < roundSummaries.length then
        parts0 ++ ["PRIOR ROUND SUMMARIES:"] ++
          (roundSummaries.enum.map fun p => "Round " ++ toString (p.1 + 1) ++ ": " ++ p.2) ++ [""]
      else parts0
  let parts2 :=
    if 0 < currentRoundMessages.length then
      parts1 ++ ["THIS ROUND SO FAR:"] ++
        (currentRoundMessages.map fun m => "[" ++ m.speaker ++ "]: " ++ m.content) ++ [""]
    else parts1
  let final :=
    if round == 1 then
      "ROUND 1: Give your core perspective on this topic from your area of expertise as " ++ displayName ++ "."
    else
      "ROUND " ++ toString round ++ ": Build on or challenge what has been said. Do not repeat points already made. Push the debate forward."
  joinLines (parts2 ++ [final])

/-- Moderator opening system prompt (orchestrator-stream.ts lines 153–157). -/
def modOpenSystem : String :=
  joinLines [
    "You are a neutral, incisive council moderator.",
    "Be brief (60–80 words). Identify 2–3 dimensions experts should address.",
    "Do NOT give opinions. Set the stage only."]

/-- Moderator opening user prompt (orchestrator-stream.ts lines 158–164). -/
def modOpenUser (question : String) (userContext : Option String) (council : Council)
    (personaNames : List String) : String :=
  let ctx := userContext.getD ""
  joinLines (filterTruthy [
    "Open this council session on: \"" ++ question ++ "\"",
    (if ctx.isEmpty then "" else "Context about the person asking: " ++ ctx),
    "Council focus: " ++ council.focus.getD "general analysis",
    "Experts attending: " ++ joinWith ", " personaNames ++ ".",
    "Frame the session in 2–3 sentences. Identify key tensions to explore. If context was provided, acknowledge it briefly."])

/-- Moderator round-summary system prompt (orchestrator-stream.ts lines 218–222). -/
def sumSystem : String :=
  joinLines [
    "You are a neutral council moderator.",
    "Summarise the debate round in 60–80 words.",
    "Capture agreements, disagreements, and one focus question for the next round."]

/-- Moderator round-summary user prompt (orchestrator-stream.ts lines 223–229). -/
def sumUser (question : String) (transcript : List Message) (round : Nat) : String :=
  let roundMessages := transcript.filter fun m => m.round == round && m.speaker != "Moderator"
  joinLines [
    "Topic: \"" ++ question ++ "\"",
    "Round " ++ toString round ++ ":",
    joinWith "\n\n" (roundMessages.map fun m => "[" ++ m.speaker ++ "]: " ++ m.content),
    "Summarise and end with a focus question for Round " ++ toString (round + 1) ++ "."]

/-- Synthesis system prompt (orchestrator-stream.ts lines 251–258). -/
def synthSystem : String :=
  joinLines [
    "You are a synthesis engine for an expert council debate.",
    "Output EXACTLY this JSON — nothing else:",
    "\x7b\"decisions\":[\"...\"],\"dissent\":[\"...\"],\"open_questions\":[\"...\"],\"actions\":[\"...\"],\"confidence\":\"low|medium|high\",\"summary\":\"...\"\x7d",
    "No markdown, no preamble.",
    "SAFETY: If the topic involves mental health, self-harm, crisis, abuse, or medical/legal decisions, the \"summary\" field MUST include a sentence directing the user to seek qualified professional or emergency help. Include crisis line 988 (US) if mental health or crisis is involved.",
    "SAFETY: Never include specific medical dosages, diagnoses, investment recommendations, or legal opinions in the output."]

/-- The compact transcript rendered into the synthesis user prompt
(orchestrator-stream.ts lines 260–263): moderator messages other than
the round-0 opening are filtered out. -/
def compactTranscript (transcript : List Message) : String :=
  joinWith "\n\n" ((transcript.filter fun m => m.speaker != "Moderator" || m.round == 0).map
    fun m => "[" ++ m.speaker ++ "]: " ++ m.content)

/-- Synthesis user prompt (orchestrator-stream.ts lines 265–271). -/
def synthUser (question : String) (userContext : Option String) (transcript : List Message) : String :=
  let ctx := userContext.getD ""
  joinLines (filterTruthy [
    "Question: \"" ++ question ++ "\"",
    (if ctx.isEmpty then "" else "Person's context: " ++ ctx),
    "",
    "Transcript:",
    compactTranscript transcript])

-- ─── The streaming runner (orchestrator-stream.ts lines 129–332) ────────────

/-- Everything `runCouncilStream` consumes.  The oracle maps the index
of a provider call (in the strictly sequential schedule) to its
post-retry outcome; `clock` supplies the timestamp of the k-th message
pushed, and `sessionId`/`createdAt`/`durationSeconds` stand for the
ambient `crypto.randomUUID()` and wall-clock reads. -/
structure RunEnv where
  question : String
  council : Council
  config : EklavyaConfig
  catalog : String → Option Persona
  oracle : Nat → Except String String
  userContext : Option String := none
  clock : Nat → String := fun _ => ""
  sessionId : String := ""
  createdAt : String := ""
  durationSeconds : Nat := 0
  personaOverrides : Option (List String) := none

/-- Mutable state of one run: the transcript, the stored round
summaries, the number of provider calls made, the model-version map,
and (for specification purposes) the trace of requests issued. -/
structure RunSt where
  transcript : List Message
  roundSummaries : List String
  providerCalls : Nat
  modelVersions : List (String × String)
  trace : List LLMRequest

/-- The state at session start. -/
def initSt : RunSt :=
  { transcript := [], roundSummaries := [], providerCalls := 0, modelVersions := [], trace := [] }

/-- One `callProvider` await: consult the oracle at the current call
index; a fatal outcome is a rejected promise and aborts the run. -/
def callO (env : RunEnv) (req : LLMRequest) (st : RunSt) : Except String (String × RunSt) :=
  match env.oracle st.providerCalls with
  | Except.ok text =>
    Except.ok (text, { st with providerCalls := st.providerCalls + 1, trace := st.trace ++ [req] })
  | Except.error e => Except.error e

/-- `transcript.push(...)` with the ambient timestamp. -/
def pushMsg (env : RunEnv) (st : RunSt) (speaker role content : String) (round : Nat) : RunSt :=
  { st with transcript := st.transcript ++
      [{ speaker := speaker, speaker_role := role, content := content,
         round := round, timestamp := env.clock st.transcript.length }] }

/-- The moderator opening (orchestrator-stream.ts lines 150–179). -/
def openingStep (env : RunEnv) (personaNames : List String) (st : RunSt) : Except String RunSt :=
  let req : LLMRequest :=
    { system := modOpenSystem,
      user := modOpenUser env.question env.userContext env.council personaNames,
      max_tokens := some 150, temperature := some 0.5 }
  match callO env req st with
  | Except.ok (moderatorOpen, st2) =>
    Except.ok (pushMsg env st2 "Moderator" "Council Moderator" moderatorOpen 0)
  | Except.error e => Except.error e

/-- The request built for one persona turn (orchestrator-stream.ts lines
194–199): system and user prompt, the configured token budget, and the
temperature derived from the same persona's contrarian level. -/
def personaReqOf (env : RunEnv) (persona : Persona) (round : Nat) (st : RunSt) : LLMRequest :=
  { system := buildPersonaSystemPrompt persona env.userContext,
    user := buildPersonaUserPrompt persona env.question st.transcript st.roundSummaries round,
    max_tokens := some env.config.max_tokens_per_turn,
    temperature := some (contrarianTemperature persona.contrarian_level) }

/-- One persona turn (orchestrator-stream.ts lines 186–212). -/
def personaTurn (env : RunEnv) (activeProvider : String) (round : Nat) (persona : Persona)
    (st : RunSt) : Except String RunSt :=
  let provider := persona.provider.getD activeProvider
  let model := persona.model.getD (match lookupProviderCfg env.config provider with
    | some pc => pc.default_model
    | none => "")
  let st := { st with modelVersions := st.modelVersions ++ [(persona.id, provider ++ "/" ++ model)] }
  let req := personaReqOf env persona round st
  match callO env req st with
  | Except.ok (response, st2) =>
    Except.ok (pushMsg env st2 (persona.display_name.getD persona.name) persona.role response round)
  | Except.error e => Except.error e

/-- The persona loop of one round, in council order. -/
def runPersonas (env : RunEnv) (activeProvider : String) (round : Nat) :
    List Persona → RunSt → Except String RunSt
  | [], st => Except.ok st
  | p :: ps, st =>
    match personaTurn env activeProvider round p st with
    | Except.ok st2 => runPersonas env activeProvider round ps st2
    | Except.error e => Except.error e

/-- The between-round moderator summary (orchestrator-stream.ts lines
215–246): the summary is both stored for the next rounds' prompts and
appended to the transcript with the current round's marker. -/
def summaryStep (env : RunEnv) (round : Nat) (st : RunSt) : Except String RunSt :=
  let req : LLMRequest :=
    { system := sumSystem,
      user := sumUser env.question st.transcript round,
      max_tokens := some 180, temperature := some 0.4 }
  match callO env req st with
  | Except.ok (summary, st2) =>
    let st3 := { st2 with roundSummaries := st2.roundSummaries ++ [summary] }
    Except.ok (pushMsg env st3 "Moderator" "Council Moderator" summary round)
  | Except.error e => Except.error e

/-- One full round: every persona speaks, then (except after the last
round) the moderator summarises. -/
def roundStep (env : RunEnv) (activeProvider : String) (personas : List Persona)
    (totalRounds round : Nat) (st : RunSt) : Except String RunSt :=
  match runPersonas env activeProvider round personas st with
  | Except.ok st2 => if round < totalRounds then summaryStep env round st2 else Except.ok st2
  | Except.error e => Except.error e

/-- The round loop over the given list of round numbers. -/
def runRoundsFrom (env : RunEnv) (activeProvider : String) (personas : List Persona)
    (totalRounds : Nat) : List Nat → RunSt → Except String RunSt
  | [], st => Except.ok st
  | r :: rs, st =>
    match roundStep env activeProvider personas totalRounds r st with
    | Except.ok st2 => runRoundsFrom env activeProvider personas totalRounds rs st2
    | Except.error e => Except.error e

/-- `personaOverrides ?? council.persona_ids`, resolved through the
catalog; an unknown id aborts before any call. -/
def resolvePersonas (env : RunEnv) : Except String (List Persona) :=
  (env.personaOverrides.getD env.council.persona_ids).mapM (getPersona env.catalog)

/-- The debate phase of `runCouncilStream` (lines 136–247): opening,
then all rounds, producing the state the synthesis is run on. -/
def runDebate (env : RunEnv) : Except String (List Persona × RunSt) :=
  match resolvePersonas env with
  | Except.error e => Except.error e
  | Except.ok personas =>
    match getActiveProvider env.config with
    | Except.error e => Except.error e
    | Except.ok activeProvider =>
      let personaNames := personas.map fun p => p.display_name.getD p.name
      match openingStep env personaNames initSt with
      | Except.ok st1 =>
        match runRoundsFrom env activeProvider personas env.council.rounds
            ((List.range env.council.rounds).map (· + 1)) st1 with
        | Except.ok st2 => Except.ok (personas, st2)
        | Except.error e => Except.error e
      | Except.error e => Except.error e

/-- The one synthesis request of a session (orchestrator-stream.ts lines
251–277): non-streaming, low temperature, prefill `\x7b`, user prompt
rendered from the accumulated transcript. -/
def synthReqOf (env : RunEnv) (st : RunSt) : LLMRequest :=
  { system := synthSystem,
    user := synthUser env.question env.userContext st.transcript,
    max_tokens := some 1800, temperature := some 0.2, prefill := some "\x7b" }

/-- The synthesis phase continued: issue the call, run the extraction
ladder, and assemble the Session value. -/
def synthesisStep (env : RunEnv) (personas : List Persona) (st : RunSt) :
    Except String (Session × List LLMRequest) :=
  match callO env (synthReqOf env st) st with
  | Except.ok (synthText, st2) =>
    Except.ok (
      { id := env.sessionId, question := env.question,
        council_id := env.council.id, council_name := env.council.name,
        transcript := st2.transcript, synthesis := extractSynthesis synthText,
        created_at := env.createdAt, duration_seconds := env.durationSeconds,
        persona_count := personas.length, rounds := env.council.rounds,
        provider_calls := st2.providerCalls, model_versions := st2.modelVersions },
      st2.trace)
  | Except.error e => Except.error e

/-- `runCouncilStream` (orchestrator-stream.ts lines 129–332) as a pure
function of its environment: the Session on normal completion, or the
first fatal error — the function has no try/catch, so any rejected
provider call propagates to the caller. -/
def runCouncilStream (env : RunEnv) : Except String (Session × List LLMRequest) :=
  match runDebate env with
  | Except.ok (personas, st) => synthesisStep env personas st
  | Except.error e => Except.error e

/-- An oracle with no fatal outcomes: every provider call completes. -/
def pureOracle (f : Nat → String) : Nat → Except String String :=
  fun i => Except.ok (f i)

/-- The (speaker, round) view of a message, the shape the transcript
claims are about. -/
def msr (m : Message) : String × Nat :=
  (m.speaker, m.round)

/-- The expected (speaker, round) schedule of the rounds starting at
round `r` with `n` rounds left: every participant in council order,
then a moderator summary except after the last round. -/
def scheduleTail (names : List String) : Nat → Nat → List (String × Nat)
  | _, 0 => []
  | r, n + 1 =>
    names.map (fun nm => (nm, r)) ++ (if 0 < n then [("Moderator", r)] else []) ++
      scheduleTail names (r + 1) n

/-- The expected (speaker, round) schedule of a whole session of
`totalRounds` rounds: the opening, then the rounds. -/
def scheduleSR (names : List String) (totalRounds : Nat) : List (String × Nat) :=
  ("Moderator", 0) :: scheduleTail names 1 totalRounds

/-- The requests of a trace that carry a prefill — in this pipeline,
exactly the synthesis requests. -/
def tracePrefills (st : RunSt) : List LLMRequest :=
  st.trace.filter fun r => r.prefill.isSome

-- ─── Concrete fixtures used by witnesses and counterexamples ────────────────

def wPersonaA : Persona :=
  { id := "pa", name := "A", role := "R", expertise := ["e"], style := "s",
    contrarian_level := 0.9, verbosity := "brief" }

def wPersonaB : Persona :=
  { id := "pb", name := "B", role := "R", expertise := ["e"], style := "s",
    contrarian_level := 0.6, verbosity := "brief" }

def wPersonaC : Persona :=
  { id := "pc", name := "C", role := "R", expertise := ["e"], style := "s",
    contrarian_level := 0.2, verbosity := "brief" }

def wCatalog : String → Option Persona := fun i =>
  if i == "pa" then some wPersonaA
  else if i == "pb" then some wPersonaB
  else if i == "pc" then some wPersonaC
  else none

def wConfig : EklavyaConfig :=
  { providers := [("anthropic", { api_key := "k", default_model := "m" })],
    default_provider := "anthropic", default_council := "sc", default_rounds := 2,
    stream := true, max_tokens_per_turn := 400 }

/-- A three-participant, two-round council: the claimed scenario. -/
def c1Council : Council :=
  { id := "c1c", name := "C1", description := "d", persona_ids := ["pa", "pb", "pc"], rounds := 2 }

def c1Env : RunEnv :=
  { question := "Should we migrate to microservices?", council := c1Council,
    config := wConfig, catalog := wCatalog,
    oracle := pureOracle fun i => "m" ++ toString i }

def c1Personas : List Persona :=
  match resolvePersonas c1Env with
  | Except.ok ps => ps
  | Except.error _ => []

/-- A one-participant, one-round council. -/
def c4Council : Council :=
  { id := "c4c", name := "C4", description := "d", persona_ids := ["pa"], rounds := 1 }

/-- A run whose synthesis backend answers unparseable text. -/
def c4Env : RunEnv :=
  { question := "q", council := c4Council, config := wConfig, catalog := wCatalog,
    oracle := pureOracle fun i => if i == 2 then "not json" else "t" }

def c4St : RunSt :=
  match runDebate c4Env with
  | Except.ok (_, st) => st
  | Except.error _ => initSt

def c4Personas : List Persona :=
  match runDebate c4Env with
  | Except.ok (ps, _) => ps
  | Except.error _ => []

/-- A one-participant, two-round council. -/
def c9Council : Council :=
  { id := "c9c", name := "C9", description := "d", persona_ids := ["pa"], rounds := 2 }

/-- A run whose round-1 moderator summary is the recognisable string
`ZZZ` (no other oracle answer, prompt literal, or fixture field contains
the letter Z). -/
def c9Env : RunEnv :=
  { question := "q", council := c9Council, config := wConfig, catalog := wCatalog,
    oracle := pureOracle fun i =>
      if i == 0 then "o" else if i == 1 then "t1" else if i == 2 then "ZZZ"
      else if i == 3 then "t2" else "x" }

def c9St : RunSt :=
  match runDebate c9Env with
  | Except.ok (_, st) => st
  | Except.error _ => initSt

def c9Personas : List Persona :=
  match resolvePersonas c9Env with
  | Except.ok ps => ps
  | Except.error _ => []

/-- A run in which the opening and all of round 1 complete and the first
round-2 generation call fails fatally. -/
def c6Env : RunEnv :=
  { question := "q", council := c9Council, config := wConfig, catalog := wCatalog,
    oracle := fun i =>
      if i == 0 then Except.ok "o" else if i == 1 then Except.ok "t1"
      else if i == 2 then Except.ok "ZZZ" else Except.error "overloaded" }

/-- A run in which the whole debate succeeds and the synthesis call
itself fails fatally. -/
def c6bEnv : RunEnv :=
  { question := "q", council := c9Council, config := wConfig, catalog := wCatalog,
    oracle := fun i => if i < 4 then Except.ok "t" else Except.error "status 529" }

def c6bSt : RunSt :=
  match runDebate c6bEnv with
  | Except.ok (_, st) => st
  | Except.error _ => initSt

def c6bPersonas : List Persona :=
  match runDebate c6bEnv with
  | Except.ok (ps, _) => ps
  | Except.error _ => []

/-- A transcript with an opening, a completed round 1 (turn plus stored
summary `ZZZ`), and one earlier round-2 turn by another participant. -/
def c2Transcript : List Message :=
  [ { speaker := "Moderator", speaker_role := "Council Moderator", content := "o", round := 0, timestamp := "" },
    { speaker := "A", speaker_role := "R", content := "t1", round := 1, timestamp := "" },
    { speaker := "Moderator", speaker_role := "Council Moderator", content := "ZZZ", round := 1, timestamp := "" },
    { speaker := "B", speaker_role := "R", content := "u2", round := 2, timestamp := "" } ]

/-- A backend failing twice with retryable errors, then succeeding. -/
def c3fn : Nat → Except String String := fun n =>
  if n == 0 then Except.error "overloaded"
  else if n == 1 then Except.error "timeout" else Except.ok "done"

/-- A backend failing with a non-retryable error. -/
def c3gn : Nat → Except String String := fun _ => Except.error "authentication failed"

/-- The claimed extractor scenario input (backticks written `\x60`,
braces `\x7b`/`\x7d`). -/
def c5raw : String := "Sure! \x60\x60\x60json\n\x7b\"decisions\":[\"x\"]\x7d\n\x60\x60\x60"

/-- The record the claim expects for `c5raw`. -/
def c5Expected : Synthesis :=
  { decisions := [Json.str "x"], dissent := [], open_questions := [], actions := [],
    confidence := Json.str "medium", summary := Json.str "See transcript." }

/-- Leading whitespace, a role header, and an interior tab. -/
def c7x : String := " USER:\tx"

-- ─── Theorems ───────────────────────────────────────────────────────────────

theorem subIn_extend {sub a : List Char} (h : sub <:+: a) (b : List Char) : sub <:+: a ++ b := by
  obtain ⟨s, t, rfl⟩ := h
  exact ⟨s, t ++ b, by simp⟩

theorem subIn_shift (a : List Char) {sub b : List Char} (h : sub <:+: b) : sub <:+: a ++ b := by
  obtain ⟨s, t, rfl⟩ := h
  exact ⟨a ++ s, t, by simp⟩

theorem subIn_of_suffix (pre : List Char) (sub : List Char) : sub <:+: pre ++ sub :=
  ⟨pre, [], by simp⟩

/-- A string occurring inside one element of a joined list occurs inside
the join. -/
theorem sub_joinWith (sep : String) {sub : List Char} {part : String} :
    ∀ parts : List String, part ∈ parts → sub <:+: part.data →
      sub <:+: (joinWith sep parts).data := by
  intro parts
  induction parts with
  | nil => intro h; cases h
  | cons p ps ih =>
    intro hmem hsub
    rcases List.mem_cons.mp hmem with rfl | hmem2
    · cases ps with
      | nil => simpa [joinWith] using hsub
      | cons q qs =>
        rw [show joinWith sep (part :: q :: qs) = part ++ sep ++ joinWith sep (q :: qs) from rfl,
          String.data_append, String.data_append]
        exact subIn_extend (subIn_extend hsub _) _
    · cases ps with
      | nil => cases hmem2
      | cons q qs =>
        rw [show joinWith sep (p :: q :: qs) = p ++ sep ++ joinWith sep (q :: qs) from rfl,
          String.data_append, String.data_append]
        exact subIn_shift _ (ih hmem2 hsub)

/-- A non-empty element of a prompt line list survives `filter(Boolean)`. -/
theorem mem_filterTruthy {part : String} {parts : List String} (hmem : part ∈ parts)
    (hne : part.isEmpty = false) : part ∈ filterTruthy parts := by
  simp [filterTruthy, List.mem_filter, hmem, hne]

/-- A concatenation whose left part is non-empty is non-empty. -/
theorem append_isEmpty_false {a : String} (b : String) (ha : a.data ≠ []) :
    (a ++ b).isEmpty = false := by
  rw [Bool.eq_false_iff]
  intro h
  have hempty := (String.isEmpty_iff _).mp h
  have hd : (a ++ b).data = [] := by rw [hempty]
  rw [String.data_append] at hd
  exact ha (List.append_eq_nil.mp hd).1

theorem replaceFences_mem (cs : List Char) : ∀ c ∈ replaceFences cs, c ∈ cs ∨ c = '\x27' := by
  induction cs using replaceFences.induct with
  | case1 rest ih =>
    intro c hc
    rw [replaceFences] at hc
    rcases List.mem_cons.mp hc with rfl | hc
    · exact Or.inr rfl
    · rcases List.mem_cons.mp hc with rfl | hc
      · exact Or.inr rfl
      · rcases List.mem_cons.mp hc with rfl | hc
        · exact Or.inr rfl
        · rcases ih c hc with h | h
          · exact Or.inl (by simp [List.mem_cons, h])
          · exact Or.inr h
  | case2 a rest hne ih =>
    intro c hc
    rw [replaceFences] at hc
    · rcases List.mem_cons.mp hc with rfl | hc
      · exact Or.inl (List.mem_cons_self _ _)
      · rcases ih c hc with h | h
        · exact Or.inl (List.mem_cons_of_mem _ h)
        · exact Or.inr h
    · exact hne
  | case3 =>
    intro c hc
    rw [replaceFences] at hc
    cases hc

theorem splitAfterTerms_mem (cs : List Char) : ∀ l ∈ splitAfterTerms cs, ∀ c ∈ l, c ∈ cs := by
  induction cs with
  | nil => intro l hl; cases hl
  | cons a rest ih =>
    intro l hl c hc
    rw [splitAfterTerms] at hl
    by_cases ht : isLineTerm a
    · rw [if_pos ht] at hl
      rcases List.mem_cons.mp hl with rfl | hl2
      · rcases List.mem_cons.mp hc with rfl | hc2
        · exact List.mem_cons_self _ _
        · cases hc2
      · exact List.mem_cons_of_mem _ (ih l hl2 c hc)
    · rw [if_neg ht] at hl
      rcases hsp : splitAfterTerms rest with _ | ⟨m, ms⟩
      · rw [hsp] at hl
        rcases List.mem_cons.mp hl with rfl | hl2
        · rcases List.mem_cons.mp hc with rfl | hc2
          · exact List.mem_cons_self _ _
          · cases hc2
        · cases hl2
      · rw [hsp] at hl
        rcases List.mem_cons.mp hl with rfl | hl2
        · rcases List.mem_cons.mp hc with rfl | hc2
          · exact List.mem_cons_self _ _
          · have hm : c ∈ m := hc2
            have := ih m (by rw [hsp]; exact List.mem_cons_self _ _) c hm
            exact List.mem_cons_of_mem _ this
        · exact List.mem_cons_of_mem _ (ih l (by rw [hsp]; exact List.mem_cons_of_mem _ hl2) c hc)

theorem stripRoleHeaders_mem (cs : List Char) : ∀ c ∈ stripRoleHeaders cs, c ∈ cs := by
  intro c hc
  rw [stripRoleHeaders, List.mem_flatten] at hc
  obtain ⟨l, hl, hcl⟩ := hc
  obtain ⟨line, hline, rfl⟩ := List.mem_map.mp hl
  have hcline : c ∈ line := by
    rw [stripHeaderLine] at hcl
    cases h : headerLen line with
    | some n => rw [h] at hcl; exact List.drop_subset _ _ hcl
    | none => rw [h] at hcl; exact hcl
  exact splitAfterTerms_mem cs line hline c hcline

theorem jsTrim_mem (cs : List Char) : ∀ c ∈ jsTrim cs, c ∈ cs := by
  intro c hc
  rw [jsTrim] at hc
  have h1 := List.mem_reverse.mp hc
  have h2 := (List.dropWhile_sublist _).subset h1
  have h3 := List.mem_reverse.mp h2
  exact (List.dropWhile_sublist _).subset h3

/-- C7 (amended): the sanitiser's output never contains a character of
the stripped control class (U+0000–U+0008, U+000B, U+000C,
U+000E–U+001F, U+007F); tab, line feed and carriage return are not in
that class and may survive, the function is not idempotent, and a
leading role header can survive one pass (see the counterexample). -/
theorem c7_sanitise_strips_controls (value : String) (maxLength : Nat) :
    ((sanitiseField value maxLength).data.all fun c => !isStrippedControl c) = true := by
  rw [List.all_eq_true]
  intro c hc
  have hc1 : c ∈ (stripRoleHeaders (replaceFences
      (value.data.filter fun c => !isStrippedControl c))).take maxLength :=
    jsTrim_mem _ c hc
  have hc2 := List.take_subset _ _ hc1
  have hc3 := stripRoleHeaders_mem _ c hc2
  rcases replaceFences_mem _ c hc3 with h | rfl
  · exact (List.mem_filter.mp h).2
  · decide

/-- C8: contrarian level 1.0 maps to the top of the bounded temperature
range (1.0, the maximum over levels in [0,1]) and to the
challenge-aggressively instruction; level 0.2 maps to the
seek-common-ground instruction and to a temperature strictly below that
of every level in the two higher instruction tiers; and within a
persona-turn request both the sampling temperature and the instruction
embedded in the system prompt are derived from the same
`contrarian_level` of the same participant. -/
theorem c8_contrarian_mapping (env : RunEnv) (persona : Persona) (round : Nat) (st : RunSt)
    (level : ℚ) (hlo : 0 ≤ level) (hhi : level ≤ 1) :
    contrarianTemperature 1 = 1 ∧
    contrarianTemperature level ≤ contrarianTemperature 1 ∧
    contrarianInstruction 1 = aggressiveInstruction ∧
    contrarianInstruction 0.2 = commonGroundInstruction ∧
    (contrarianInstruction level ≠ commonGroundInstruction →
      contrarianTemperature 0.2 < contrarianTemperature level) ∧
    (personaReqOf env persona round st).temperature =
      some (contrarianTemperature persona.contrarian_level) ∧
    (contrarianInstruction persona.contrarian_level).data <:+:
      (personaReqOf env persona round st).system.data := by
  refine ⟨by norm_num [contrarianTemperature], ?_, ?_, ?_, ?_, rfl, ?_⟩
  · unfold contrarianTemperature
    linarith
  · norm_num [contrarianInstruction]
  · norm_num [contrarianInstruction]
  · intro hne
    by_cases h5 : (0.5 : ℚ) ≤ level
    · unfold contrarianTemperature
      linarith
    · exfalso
      apply hne
      have h8 : ¬ (0.8 : ℚ) ≤ level := by linarith
      simp [contrarianInstruction, ge_iff_le, h5, h8]
  · show (contrarianInstruction persona.contrarian_level).data <:+:
      (buildPersonaSystemPrompt persona env.userContext).data
    rw [buildPersonaSystemPrompt]
    apply @sub_joinWith "\n" (contrarianInstruction persona.contrarian_level).data
      ("- " ++ contrarianInstruction (sanitisePersona persona).contrarian_level)
    · apply mem_filterTruthy
      · repeat first
          | exact List.mem_cons_self _ _
          | apply List.mem_cons_of_mem
      · exact append_isEmpty_false _ (by decide)
    · rw [String.data_append]
      exact subIn_of_suffix _ _

/-- C2: the prompt built for a participant turn in round r ≥ 2 contains
every stored prior-round summary string and, verbatim, every
non-moderator turn of the current round already in the transcript; it
depends on the transcript only through those current-round turns — so
no verbatim content of any earlier round other than the summary strings
can occur in it; a round-1 prompt contains the moderator's opening
framing instead. -/
theorem c2_context_window (persona : Persona) (question : String)
    (fullTranscript : List Message) (roundSummaries : List String) (round : Nat) :
    (2 ≤ round → ∀ (i : Nat) (s : String), roundSummaries[i]? = some s →
      s.data <:+: (buildPersonaUserPrompt persona question fullTranscript roundSummaries round).data) ∧
    (∀ m ∈ fullTranscript, m.round = round → m.speaker ≠ "Moderator" →
      m.content.data <:+: (buildPersonaUserPrompt persona question fullTranscript roundSummaries round).data) ∧
    (2 ≤ round → ∀ t₂ : List Message,
      t₂.filter (fun m => m.round == round && m.speaker != "Moderator") =
        fullTranscript.filter (fun m => m.round == round && m.speaker != "Moderator") →
      buildPersonaUserPrompt persona question t₂ roundSummaries round =
        buildPersonaUserPrompt persona question fullTranscript roundSummaries round) ∧
    (round = 1 → ∀ opening, fullTranscript.find? (fun m => m.round == 0) = some opening →
      opening.content.data <:+: (buildPersonaUserPrompt persona question fullTranscript roundSummaries 1).data) := by
  refine ⟨?_, ?_, ?_, ?_⟩
  · intro h2 i s hget
    have hne : round ≠ 1 := by omega
    have hbeq : (round == 1) = false := beq_eq_false_iff_ne.mpr hne
    obtain ⟨hi, -⟩ := List.getElem?_eq_some.mp hget
    have hlen : 0 < roundSummaries.length := by omega
    have henum : (i, s) ∈ roundSummaries.enum := by
      rw [List.mem_enum_iff_getElem?]; exact hget
    have hmm : ("Round " ++ toString (i + 1) ++ ": " ++ s) ∈
        roundSummaries.enum.map (fun p => "Round " ++ toString (p.1 + 1) ++ ": " ++ p.2) :=
      List.mem_map_of_mem _ henum
    have hsub : s.data <:+: ("Round " ++ toString (i + 1) ++ ": " ++ s).data := by
      rw [String.data_append]
      exact subIn_of_suffix _ _
    simp only [buildPersonaUserPrompt, hbeq, Bool.false_eq_true, if_false, if_pos hlen]
    by_cases hc : 0 < (fullTranscript.filter fun m =>
        m.round == round && m.speaker != "Moderator").length
    · rw [if_pos hc]
      refine sub_joinWith "\n" _ ?_ hsub
      simp only [List.mem_append, List.mem_cons]
      tauto
    · rw [if_neg hc]
      refine sub_joinWith "\n" _ ?_ hsub
      simp only [List.mem_append, List.mem_cons]
      tauto
  · intro m hm hr hs
    have hmf : m ∈ fullTranscript.filter fun m => m.round == round && m.speaker != "Moderator" := by
      rw [List.mem_filter]
      exact ⟨hm, by simp [hr, bne_iff_ne, hs]⟩
    have hc : 0 < (fullTranscript.filter fun m =>
        m.round == round && m.speaker != "Moderator").length :=
      List.length_pos.mpr (List.ne_nil_of_mem hmf)
    have hmm : ("[" ++ m.speaker ++ "]: " ++ m.content) ∈
        (fullTranscript.filter fun m => m.round == round && m.speaker != "Moderator").map
          (fun m => "[" ++ m.speaker ++ "]: " ++ m.content) :=
      List.mem_map_of_mem _ hmf
    have hsub : m.content.data <:+: ("[" ++ m.speaker ++ "]: " ++ m.content).data := by
      rw [String.data_append]
      exact subIn_of_suffix _ _
    simp only [buildPersonaUserPrompt, if_pos hc]
    refine sub_joinWith "\n" _ ?_ hsub
    simp only [List.mem_append, List.mem_cons]
    tauto
  · intro h2 t₂ hfl
    have hne : round ≠ 1 := by omega
    have hbeq : (round == 1) = false := beq_eq_false_iff_ne.mpr hne
    simp only [buildPersonaUserPrompt, hbeq, Bool.false_eq_true, if_false, hfl]
  · intro h1 opening hfind
    subst h1
    have hsub : opening.content.data <:+: ("MODERATOR FRAMING: " ++ opening.content).data := by
      rw [String.data_append]
      exact subIn_of_suffix _ _
    simp only [buildPersonaUserPrompt, hfind]
    by_cases hc : 0 < (fullTranscript.filter fun m =>
        m.round == 1 && m.speaker != "Moderator").length
    · rw [if_pos hc]
      refine sub_joinWith "\n" _ ?_ hsub
      simp only [List.mem_append, List.mem_cons]
      tauto
    · rw [if_neg hc]
      refine sub_joinWith "\n" _ ?_ hsub
      simp only [List.mem_append, List.mem_cons]
      tauto

/-- C2 witness: on the concrete transcript, the round-2 prompt contains
the stored round-1 summary `ZZZ` and the earlier round-2 turn `u2`;
dropping all pre-round-2 messages leaves the prompt unchanged; and the
round-1 prompt contains the opening `o`. -/
theorem c2_context_window_witness :
    (("ZZZ" : String).data <:+: (buildPersonaUserPrompt wPersonaC "q" c2Transcript ["ZZZ"] 2).data) ∧
    (("u2" : String).data <:+: (buildPersonaUserPrompt wPersonaC "q" c2Transcript ["ZZZ"] 2).data) ∧
    (buildPersonaUserPrompt wPersonaC "q" (c2Transcript.drop 3) ["ZZZ"] 2 =
      buildPersonaUserPrompt wPersonaC "q" c2Transcript ["ZZZ"] 2) ∧
    (("o" : String).data <:+: (buildPersonaUserPrompt wPersonaC "q" c2Transcript ["ZZZ"] 1).data) :=
  ⟨(c2_context_window wPersonaC "q" c2Transcript ["ZZZ"] 2).1 (by norm_num) 0 "ZZZ" rfl,
   (c2_context_window wPersonaC "q" c2Transcript ["ZZZ"] 2).2.1
     { speaker := "B", speaker_role := "R", content := "u2", round := 2, timestamp := "" }
     (by decide) rfl (by decide),
   (c2_context_window wPersonaC "q" c2Transcript ["ZZZ"] 2).2.2.1 (by norm_num)
     (c2Transcript.drop 3) (by decide),
   (c2_context_window wPersonaC "q" c2Transcript ["ZZZ"] 1).2.2.2 rfl
     { speaker := "Moderator", speaker_role := "Council Moderator", content := "o", round := 0, timestamp := "" }
     (by decide)⟩

/-- C8 witness: level 0.9 sits in a higher tier, so its temperature
strictly exceeds that of level 0.2, and persona A's request embeds the
instruction derived from its own contrarian level in its system
prompt. -/
theorem c8_contrarian_mapping_witness :
    contrarianTemperature 0.2 < contrarianTemperature 0.9 ∧
    (contrarianInstruction wPersonaA.contrarian_level).data <:+:
      (personaReqOf c9Env wPersonaA 1 initSt).system.data :=
  ⟨(c8_contrarian_mapping c9Env wPersonaA 1 initSt 0.9 (by norm_num) (by norm_num)).2.2.2.2.1
      (by rw [show contrarianInstruction 0.9 = aggressiveInstruction by norm_num [contrarianInstruction]]; decide),
   (c8_contrarian_mapping c9Env wPersonaA 1 initSt 0.9 (by norm_num) (by norm_num)).2.2.2.2.2.2⟩

/-- C3: in `callProvider`'s retry loop (`withRetry`), a backend failing
twice with retryable errors then succeeding yields the success with 3
attempts (2 retries) and strictly increasing backoff delays between
them; a non-retryable first error yields exactly 1 attempt, no delay,
and propagates that error. -/
theorem c3_retry_policy (fn gn : Nat → Except String String) (e₀ e₁ err ok1 : String)
    (h₀ : isRetryable e₀ = true) (h₁ : isRetryable e₁ = true)
    (hf0 : fn 0 = Except.error e₀) (hf1 : fn 1 = Except.error e₁) (hf2 : fn 2 = Except.ok ok1)
    (hne : isRetryable err = false) (hg0 : gn 0 = Except.error err) :
    withRetry fn = (Except.ok ok1, 3, [RETRY_DELAY_MS * 1, RETRY_DELAY_MS * 2]) ∧
    RETRY_DELAY_MS * 1 < RETRY_DELAY_MS * 2 ∧
    withRetry gn = (Except.error err, 1, []) := by
  refine ⟨?_, by norm_num [RETRY_DELAY_MS], ?_⟩
  · show withRetryGo fn 0 (1 + 1) = _
    rw [show (1 + 1 : Nat) = Nat.succ 1 from rfl]
    simp only [withRetryGo, hf0, hf1, hf2, h₀, h₁]
    norm_num
  · show withRetryGo gn 0 (1 + 1) = _
    rw [show (1 + 1 : Nat) = Nat.succ 1 from rfl]
    simp only [withRetryGo, hg0, hne]
    norm_num

/-- C3 witness: the concrete simulated backends. -/
theorem c3_retry_policy_witness :
    withRetry c3fn = (Except.ok "done", 3, [RETRY_DELAY_MS * 1, RETRY_DELAY_MS * 2]) ∧
    RETRY_DELAY_MS * 1 < RETRY_DELAY_MS * 2 ∧
    withRetry c3gn = (Except.error "authentication failed", 1, []) :=
  c3_retry_policy c3fn c3gn "overloaded" "timeout" "authentication failed" "done"
    (by decide) (by decide) rfl rfl rfl (by decide) rfl

/-- C5: on the exact scenario text — well-formed JSON wrapped in prose
and markdown fences — the extractor recovers the payload between the
first opening brace and the last closing brace and default-fills the
missing fields: decisions `["x"]`, empty dissent/open_questions/actions,
confidence `"medium"`. -/
theorem c5_extractor_scenario : extractSynthesis c5raw = c5Expected := rfl

/-- C10: in the non-streaming Anthropic path, a supplied prefill is
prepended to the model's continuation (so prefill `{` forces a leading
brace in the returned string), and with no prefill the backend's text is
returned unchanged. -/
theorem c10_prefill_prepended (req : LLMRequest) (content : List ContentBlock) (p : String) :
    collectAnthropic { req with prefill := some p } content = p ++ respText content ∧
    collectAnthropic { req with prefill := none } content = respText content ∧
    List.isPrefixOf ("\x7b").data (collectAnthropic { req with prefill := some "\x7b" } content).data = true := by
  refine ⟨?_, rfl, ?_⟩
  · by_cases hp : p = ""
    · subst hp; rfl
    · have hne : p.isEmpty = false := by
        rw [Bool.eq_false_iff]
        intro h
        exact hp ((String.isEmpty_iff p).mp h)
      simp [collectAnthropic, hne]
  · show List.isPrefixOf ("\x7b").data (("\x7b" ++ respText content)).data = true
    simp [String.data_append, List.isPrefixOf]

/-- C7 counterexample: for `c7x = " USER:\tx"` one pass of the sanitiser
returns `"USER:\tx"`, which still begins with a role header and still
contains the control character U+0009; a second pass changes it, so
`sanitiseField` is not idempotent. -/
theorem c7_counterexample :
    sanitiseField c7x ≠ sanitiseField (sanitiseField c7x) ∧
    List.isPrefixOf ("USER:").data (sanitiseField c7x).data = true ∧
    '\t' ∈ (sanitiseField c7x).data := by
  exact ⟨by decide, by decide, by decide⟩

/-- C6 counterexample: in `c6Env` the opening and all of round 1 succeed
(three messages exist, among them the round-1 turn), then the round-2
generation call fails fatally; `runCouncilStream` rejects with that
error and returns no Session at all — the accumulated partial transcript
is discarded rather than returned with a degraded decision record. -/
theorem c6_counterexample : runCouncilStream c6Env = Except.error "overloaded" := rfl

-- ─── Shape lemmas about the runner ──────────────────────────────────────────

theorem openingStep_shape (env : RunEnv) (f : Nat → String) (hor : env.oracle = pureOracle f)
    (personaNames : List String) (st : RunSt) :
    ∃ st₁, openingStep env personaNames st = Except.ok st₁ ∧
      st₁.transcript.map msr = st.transcript.map msr ++ [("Moderator", 0)] ∧
      tracePrefills st₁ = tracePrefills st := by
  unfold openingStep
  simp only [callO, hor, pureOracle]
  refine ⟨_, rfl, ?_, ?_⟩
  · simp [pushMsg, msr]
  · simp [pushMsg, tracePrefills, List.filter_append]

theorem personaTurn_shape (env : RunEnv) (f : Nat → String) (hor : env.oracle = pureOracle f)
    (activeProvider : String) (round : Nat) (p : Persona) (st : RunSt) :
    ∃ st₁, personaTurn env activeProvider round p st = Except.ok st₁ ∧
      st₁.transcript.map msr = st.transcript.map msr ++ [(p.display_name.getD p.name, round)] ∧
      tracePrefills st₁ = tracePrefills st := by
  unfold personaTurn
  simp only [callO, hor, pureOracle]
  refine ⟨_, rfl, ?_, ?_⟩
  · simp [pushMsg, msr]
  · simp [pushMsg, tracePrefills, List.filter_append, personaReqOf]

theorem runPersonas_shape (env : RunEnv) (f : Nat → String) (hor : env.oracle = pureOracle f)
    (activeProvider : String) (round : Nat) :
    ∀ (ps : List Persona) (st : RunSt),
      ∃ st', runPersonas env activeProvider round ps st = Except.ok st' ∧
        st'.transcript.map msr =
          st.transcript.map msr ++ ps.map (fun p => (p.display_name.getD p.name, round)) ∧
        tracePrefills st' = tracePrefills st := by
  intro ps
  induction ps with
  | nil => intro st; exact ⟨st, rfl, by simp, rfl⟩
  | cons p ps ih =>
    intro st
    obtain ⟨st₁, hstep, hmap1, hpre1⟩ := personaTurn_shape env f hor activeProvider round p st
    obtain ⟨st', hrest, hmap2, hpre2⟩ := ih st₁
    refine ⟨st', ?_, ?_, ?_⟩
    · rw [runPersonas, hstep]
      exact hrest
    · rw [hmap2, hmap1]
      simp
    · rw [hpre2, hpre1]

theorem summaryStep_shape (env : RunEnv) (f : Nat → String) (hor : env.oracle = pureOracle f)
    (round : Nat) (st : RunSt) :
    ∃ st₁, summaryStep env round st = Except.ok st₁ ∧
      st₁.transcript.map msr = st.transcript.map msr ++ [("Moderator", round)] ∧
      tracePrefills st₁ = tracePrefills st := by
  unfold summaryStep
  simp only [callO, hor, pureOracle]
  refine ⟨_, rfl, ?_, ?_⟩
  · simp [pushMsg, msr]
  · simp [pushMsg, tracePrefills, List.filter_append]

theorem roundStep_shape (env : RunEnv) (f : Nat → String) (hor : env.oracle = pureOracle f)
    (activeProvider : String) (personas : List Persona) (totalRounds round : Nat) (st : RunSt) :
    ∃ st', roundStep env activeProvider personas totalRounds round st = Except.ok st' ∧
      st'.transcript.map msr =
        st.transcript.map msr ++ personas.map (fun p => (p.display_name.getD p.name, round)) ++
          (if round < totalRounds then [("Moderator", round)] else []) ∧
      tracePrefills st' = tracePrefills st := by
  obtain ⟨st₁, hrun, hmap1, hpre1⟩ := runPersonas_shape env f hor activeProvider round personas st
  by_cases hr : round < totalRounds
  · obtain ⟨st₂, hsum, hmap2, hpre2⟩ := summaryStep_shape env f hor round st₁
    refine ⟨st₂, ?_, ?_, ?_⟩
    · rw [roundStep, hrun]
      show (if round < totalRounds then summaryStep env round st₁ else Except.ok st₁) =
        Except.ok st₂
      rw [if_pos hr]
      exact hsum
    · rw [hmap2, hmap1, if_pos hr]
    · rw [hpre2, hpre1]
  · refine ⟨st₁, ?_, ?_, ?_⟩
    · rw [roundStep, hrun]
      show (if round < totalRounds then summaryStep env round st₁ else Except.ok st₁) =
        Except.ok st₁
      rw [if_neg hr]
    · rw [hmap1, if_neg hr]
      simp
    · exact hpre1

theorem runRoundsFrom_shape (env : RunEnv) (f : Nat → String) (hor : env.oracle = pureOracle f)
    (activeProvider : String) (personas : List Persona) (totalRounds : Nat) :
    ∀ (n r : Nat), r + n = totalRounds + 1 →
      ∀ st : RunSt,
        ∃ st', runRoundsFrom env activeProvider personas totalRounds (List.range' r n) st =
            Except.ok st' ∧
          st'.transcript.map msr = st.transcript.map msr ++
            scheduleTail (personas.map fun p => p.display_name.getD p.name) r n ∧
          tracePrefills st' = tracePrefills st := by
  intro n
  induction n with
  | zero => intro r _ st; exact ⟨st, rfl, by simp [scheduleTail], rfl⟩
  | succ k ih =>
    intro r hrn st
    obtain ⟨st₁, hstep, hmap1, hpre1⟩ :=
      roundStep_shape env f hor activeProvider personas totalRounds r st
    obtain ⟨st', hrest, hmap2, hpre2⟩ := ih (r + 1) (by omega) st₁
    refine ⟨st', ?_, ?_, ?_⟩
    · rw [show List.range' r (k + 1) = r :: List.range' (r + 1) k from rfl,
        runRoundsFrom, hstep]
      exact hrest
    · rw [hmap2, hmap1, scheduleTail]
      have hiff : r < totalRounds ↔ 0 < k := by omega
      simp only [hiff]
      simp [List.map_map, List.append_assoc]
    · rw [hpre2, hpre1]

theorem range_map_succ (n : Nat) : (List.range n).map (· + 1) = List.range' 1 n := by
  rw [List.range'_eq_map_range]
  exact List.map_congr_left fun x _ => Nat.add_comm x 1

theorem runDebate_shape (env : RunEnv) (f : Nat → String) (personas : List Persona) (ap : String)
    (hor : env.oracle = pureOracle f)
    (hres : resolvePersonas env = Except.ok personas)
    (hap : getActiveProvider env.config = Except.ok ap) :
    ∃ st, runDebate env = Except.ok (personas, st) ∧
      st.transcript.map msr =
        scheduleSR (personas.map fun p => p.display_name.getD p.name) env.council.rounds ∧
      tracePrefills st = [] := by
  obtain ⟨st₁, hopen, hmap1, hpre1⟩ :=
    openingStep_shape env f hor (personas.map fun p => p.display_name.getD p.name) initSt
  obtain ⟨st', hrounds, hmap2, hpre2⟩ :=
    runRoundsFrom_shape env f hor ap personas env.council.rounds env.council.rounds 1
      (by omega) st₁
  refine ⟨st', ?_, ?_, ?_⟩
  · simp only [runDebate, hres, hap, hopen, range_map_succ, hrounds]
  · rw [hmap2, hmap1]
    simp [initSt, scheduleSR]
  · rw [hpre2, hpre1]
    simp [initSt, tracePrefills]

theorem scheduleTail_length (names : List String) :
    ∀ (n r : Nat), (scheduleTail names r n).length = n * names.length + (n - 1) := by
  intro n
  induction n with
  | zero => intro r; simp [scheduleTail]
  | succ k ih =>
    intro r
    rw [scheduleTail]
    simp only [List.length_append, List.length_map, ih (r + 1)]
    cases k with
    | zero => simp
    | succ j =>
      rw [if_pos (show 0 < j + 1 by omega)]
      simp only [List.length_cons, List.length_nil, Nat.succ_sub_one, Nat.add_sub_cancel]
      ring

/-- C1: with every provider call completing, `runCouncilStream` returns
a Session whose transcript follows the schedule exactly — the opening
with round marker 0, then for each round r the participant turns in
council order marked r followed (except after the last round) by the
moderator summary marked r — so its length is
`1 + rounds * participants + (rounds - 1)`. -/
theorem c1_transcript_shape (env : RunEnv) (f : Nat → String) (personas : List Persona) (ap : String)
    (hor : env.oracle = pureOracle f)
    (hres : resolvePersonas env = Except.ok personas)
    (hap : getActiveProvider env.config = Except.ok ap) :
    (runCouncilStream env).map (fun r => (r.1.transcript.map msr, r.1.transcript.length)) =
      Except.ok
        (scheduleSR (personas.map fun p => p.display_name.getD p.name) env.council.rounds,
         1 + env.council.rounds * personas.length + (env.council.rounds - 1)) := by
  obtain ⟨st, hdeb, hmap, -⟩ := runDebate_shape env f personas ap hor hres hap
  simp only [runCouncilStream, hdeb]
  unfold synthesisStep
  simp only [callO, hor, pureOracle, Except.map]
  have hlen : st.transcript.length =
      1 + env.council.rounds * personas.length + (env.council.rounds - 1) := by
    have h1 : st.transcript.length = (st.transcript.map msr).length := by simp
    rw [h1, hmap, scheduleSR, List.length_cons, scheduleTail_length]
    simp only [List.length_map]
    generalize env.council.rounds * personas.length = q
    omega
  rw [hmap, hlen]

/-- C1 witness: the claimed scenario — 3 participants, 2 rounds — gives
the 8-message transcript with markers 0,1,1,1,1,2,2,2. -/
theorem c1_transcript_shape_witness :
    (runCouncilStream c1Env).map (fun r => (r.1.transcript.map msr, r.1.transcript.length)) =
      Except.ok
        (scheduleSR (c1Personas.map fun p => p.display_name.getD p.name) c1Env.council.rounds,
         1 + c1Env.council.rounds * c1Personas.length + (c1Env.council.rounds - 1)) :=
  c1_transcript_shape c1Env (fun i => "m" ++ toString i) c1Personas "anthropic" rfl rfl rfl

theorem joinWith_ne_empty (sep : String) {part : String} :
    ∀ parts : List String, part ∈ parts → part.data ≠ [] →
      (joinWith sep parts).data ≠ [] := by
  intro parts
  induction parts with
  | nil => intro h; cases h
  | cons p ps ih =>
    intro hmem hne
    rcases List.mem_cons.mp hmem with rfl | hmem2
    · cases ps with
      | nil => simpa [joinWith] using hne
      | cons q qs =>
        rw [show joinWith sep (part :: q :: qs) = part ++ sep ++ joinWith sep (q :: qs) from rfl,
          String.data_append, String.data_append]
        intro h
        exact hne (List.append_eq_nil.mp (List.append_eq_nil.mp h).1).1
    · cases ps with
      | nil => cases hmem2
      | cons q qs =>
        rw [show joinWith sep (p :: q :: qs) = p ++ sep ++ joinWith sep (q :: qs) from rfl,
          String.data_append, String.data_append]
        intro h
        exact ih hmem2 hne (List.append_eq_nil.mp h).2

/-- Every message the synthesis filter keeps (non-moderator turns and
the round-0 opening) has its content verbatim inside the synthesis user
prompt. -/
theorem content_in_synthUser (question : String) (ctx : Option String)
    (transcript : List Message) (m : Message) (hm : m ∈ transcript)
    (hf : m.speaker ≠ "Moderator" ∨ m.round = 0) :
    m.content.data <:+: (synthUser question ctx transcript).data := by
  have hmf : m ∈ transcript.filter fun m => m.speaker != "Moderator" || m.round == 0 := by
    rw [List.mem_filter]
    refine ⟨hm, ?_⟩
    rcases hf with h | h
    · simp [bne_iff_ne, h]
    · simp [h]
  have hpart : ("[" ++ m.speaker ++ "]: " ++ m.content) ∈
      (transcript.filter fun m => m.speaker != "Moderator" || m.round == 0).map
        (fun m => "[" ++ m.speaker ++ "]: " ++ m.content) :=
    List.mem_map_of_mem _ hmf
  have hpartne : ("[" ++ m.speaker ++ "]: " ++ m.content).data ≠ [] := by
    rw [String.data_append, String.data_append, String.data_append]
    intro h
    have := (List.append_eq_nil.mp (List.append_eq_nil.mp (List.append_eq_nil.mp h).1).1).1
    exact absurd this (by decide)
  have hct : m.content.data <:+: (compactTranscript transcript).data := by
    rw [compactTranscript]
    refine sub_joinWith "\n\n" _ hpart ?_
    rw [String.data_append]
    exact subIn_of_suffix _ _
  have hctne : (compactTranscript transcript).isEmpty = false := by
    rw [Bool.eq_false_iff]
    intro h
    have hdata : (compactTranscript transcript).data = [] := by
      rw [(String.isEmpty_iff _).mp h]
    rw [compactTranscript] at hdata
    exact joinWith_ne_empty "\n\n" _ hpart hpartne hdata
  rw [synthUser]
  refine sub_joinWith "\n" _ (mem_filterTruthy ?_ hctne) hct
  simp only [List.mem_cons]
  tauto

/-- C9 (amended): the synthesis generation call is made exactly once per
session — it is the only request carrying a prefill and is the last
request issued — and its user prompt is built over the transcript
filtered to the moderator opening and the participant turns: the
content of every such message appears in it, while the moderator
round summaries are excluded by that filter (see the counterexample). -/
theorem c9_synthesis_once (env : RunEnv) (f : Nat → String) (personas : List Persona) (ap : String)
    (hor : env.oracle = pureOracle f)
    (hres : resolvePersonas env = Except.ok personas)
    (hap : getActiveProvider env.config = Except.ok ap) :
    (runCouncilStream env).map (fun r =>
        ((r.2.filter fun q => q.prefill.isSome).length, r.2.getLast?)) =
      (runDebate env).map (fun d => (1, some (synthReqOf env d.2))) ∧
    (∀ st : RunSt, ∀ m ∈ st.transcript, (m.speaker ≠ "Moderator" ∨ m.round = 0) →
      m.content.data <:+: (synthReqOf env st).user.data) := by
  constructor
  · obtain ⟨st, hdeb, -, hpre⟩ := runDebate_shape env f personas ap hor hres hap
    unfold runCouncilStream
    rw [hdeb]
    unfold synthesisStep
    simp only [callO, hor, pureOracle, Except.map]
    have h1 : ((st.trace ++ [synthReqOf env st]).filter fun q => q.prefill.isSome).length = 1 := by
      rw [List.filter_append]
      have : st.trace.filter (fun q => q.prefill.isSome) = [] := hpre
      rw [this]
      simp [synthReqOf]
    rw [h1, List.getLast?_concat]
  · intro st m hm hf
    exact content_in_synthUser env.question env.userContext st.transcript m hm hf

/-- C9 witness: on the concrete one-participant two-round run, the trace
carries exactly one prefill request, it is the last one, and the
opening's content occurs in its user prompt. -/
theorem c9_synthesis_once_witness :
    (runCouncilStream c9Env).map (fun r =>
        ((r.2.filter fun q => q.prefill.isSome).length, r.2.getLast?)) =
      (runDebate c9Env).map (fun d => (1, some (synthReqOf c9Env d.2))) ∧
    ("o" : String).data <:+: (synthReqOf c9Env c9St).user.data :=
  ⟨(c9_synthesis_once c9Env
      (fun i => if i == 0 then "o" else if i == 1 then "t1" else if i == 2 then "ZZZ"
        else if i == 3 then "t2" else "x")
      c9Personas "anthropic" rfl rfl rfl).1,
   (c9_synthesis_once c9Env
      (fun i => if i == 0 then "o" else if i == 1 then "t1" else if i == 2 then "ZZZ"
        else if i == 3 then "t2" else "x")
      c9Personas "anthropic" rfl rfl rfl).2 c9St
     { speaker := "Moderator", speaker_role := "Council Moderator", content := "o",
       round := 0, timestamp := "" }
     (by decide) (Or.inr rfl)⟩

/-- C9 counterexample: in the concrete run the round-1 moderator summary
`ZZZ` is in the returned transcript, but the synthesis request's user
prompt — the last and only prefill request — does not contain it: the
synthesis prompt is built over the filtered transcript, not the full
one. -/
theorem c9_counterexample :
    (runCouncilStream c9Env).map (fun r =>
        r.1.transcript.map fun m => (m.speaker, m.round, m.content)) =
      Except.ok [("Moderator", 0, "o"), ("A", 1, "t1"), ("Moderator", 1, "ZZZ"), ("A", 2, "t2")] ∧
    (runCouncilStream c9Env).map (fun r => r.2.getLast?) =
      Except.ok (some (synthReqOf c9Env c9St)) ∧
    ¬ (("ZZZ" : String).data <:+: (synthReqOf c9Env c9St).user.data) := by
  exact ⟨rfl, rfl, by decide⟩

/-- C4: when the synthesis backend's raw text has a candidate payload
that fails to parse as JSON, no exception reaches the caller: the
extractor returns the fully degraded fallback record (empty lists,
confidence low, summary pointing at the transcript) and the Session is
still returned with the accumulated transcript unchanged. -/
theorem c4_parse_failure_fallback (env : RunEnv) (personas : List Persona) (st : RunSt)
    (raw : String)
    (hdeb : runDebate env = Except.ok (personas, st))
    (hsynth : env.oracle st.providerCalls = Except.ok raw)
    (hparse : parseJson (synthCandidate raw) = none) :
    extractSynthesis raw = fallbackSynthesis ∧
    runCouncilStream env = Except.ok (
      { id := env.sessionId, question := env.question, council_id := env.council.id,
        council_name := env.council.name, transcript := st.transcript,
        synthesis := fallbackSynthesis, created_at := env.createdAt,
        duration_seconds := env.durationSeconds, persona_count := personas.length,
        rounds := env.council.rounds, provider_calls := st.providerCalls + 1,
        model_versions := st.modelVersions },
      st.trace ++ [synthReqOf env st]) := by
  have hex : extractSynthesis raw = fallbackSynthesis := by
    rw [extractSynthesis, hparse]
  refine ⟨hex, ?_⟩
  simp only [runCouncilStream, hdeb]
  unfold synthesisStep
  simp only [callO, hsynth, hex]

/-- C4 witness: the concrete run whose synthesis backend answers
`not json`. -/
theorem c4_parse_failure_fallback_witness :
    extractSynthesis "not json" = fallbackSynthesis ∧
    runCouncilStream c4Env = Except.ok (
      { id := c4Env.sessionId, question := c4Env.question, council_id := c4Env.council.id,
        council_name := c4Env.council.name, transcript := c4St.transcript,
        synthesis := fallbackSynthesis, created_at := c4Env.createdAt,
        duration_seconds := c4Env.durationSeconds, persona_count := c4Personas.length,
        rounds := c4Env.council.rounds, provider_calls := c4St.providerCalls + 1,
        model_versions := c4St.modelVersions },
      c4St.trace ++ [synthReqOf c4Env c4St]) :=
  c4_parse_failure_fallback c4Env c4Personas c4St "not json" rfl rfl rfl

/-- C6 (amended): a fatal generation failure is NOT converted into a
partial Session: whenever the debate phase rejects, or the synthesis
call itself rejects, `runCouncilStream` propagates that error to its
caller and the accumulated transcript is discarded; the degraded partial
record is produced only for synthesis parse failures (C4). -/
theorem c6_fatal_error_propagates (env : RunEnv) (e : String) (personas : List Persona)
    (st : RunSt) :
    (runDebate env = Except.error e → runCouncilStream env = Except.error e) ∧
    (runDebate env = Except.ok (personas, st) → env.oracle st.providerCalls = Except.error e →
      runCouncilStream env = Except.error e) := by
  constructor
  · intro h
    simp only [runCouncilStream, h]
  · intro h hsy
    simp only [runCouncilStream, h]
    unfold synthesisStep
    simp only [callO, hsy]

/-- C6 witness: a run whose debate succeeds and whose synthesis call
then fails fatally rejects with that error. -/
theorem c6_fatal_error_propagates_witness :
    runCouncilStream c6bEnv = Except.error "status 529" :=
  (c6_fatal_error_propagates c6bEnv "status 529" c6bPersonas c6bSt).2 rfl rfl

end Eklavya
